import Mathlib

/-!
Verification of the accession-expansion and multi-source execution dispatcher
of `sratools` (src/tools/driver-tool/sratools.cpp), as a shallow embedding.

The embedding keeps the source's structure: the accession classifier is the
4-state character scanner `SRA_AccessionType`; the expander is a fold of the
per-accession body of `expandAll`'s loop; the child-process supervisor
`processSource` classifies a child's termination status; `processRun` iterates
the data sources for one run; the run loop of `processAccessions` iterates
runs.  Process-terminating calls (`exit`, `abort`) are modelled as explicit
result constructors that propagate outward, and external effects (the
filesystem `access` check, the SDL resolver, the child's termination status)
are parameters of the corresponding functions.
-/

namespace sratools

/-- `EX_TEMPFAIL` from `sysexits.h`: the distinguished temporary-failure exit
code. -/
def EX_TEMPFAIL : Nat := 75

/-- `EX_UNAVAILABLE` from `sysexits.h`: the service-unavailable exit code used
when container expansion is requested. -/
def EX_UNAVAILABLE : Nat := 69

/-- Final acceptance check of `SRA_AccessionType` (line 141 of the source):
the accumulated digit count must be between 6 and 9 inclusive; on success the
remembered type character (as a code point) is returned, otherwise 0. -/
def typeFinish (type digits : Nat) : Nat :=
  if 6 ≤ digits ∧ digits ≤ 9 then type else 0

/-- The state-tagged character loop of `SRA_AccessionType` (lines 94-140).
State 0 expects one of {D,E,S}; state 1 expects literal R; state 2 expects one
of {A,P,R,S,X} and remembers it as the type; state 3 consumes decimal digits,
stopping early at a dot.  Any unexpected character returns 0 immediately
(`return 0` / `return false` in the source).  States above 3 are unreachable
(the source asserts so); they are given state-3 behaviour here. -/
def typeScan : Nat → Nat → Nat → List Char → Nat
  | _, type, digits, [] => typeFinish type digits
  | 0, type, digits, c :: rest =>
      if c = 'D' ∨ c = 'E' ∨ c = 'S' then typeScan 1 type digits rest else 0
  | 1, type, digits, c :: rest =>
      if c = 'R' then typeScan 2 type digits rest else 0
  | 2, _, digits, c :: rest =>
      if c = 'A' ∨ c = 'P' ∨ c = 'R' ∨ c = 'S' ∨ c = 'X' then
        typeScan 3 c.toNat digits rest
      else 0
  | _ + 3, type, digits, c :: rest =>
      if c = '.' then typeFinish type digits
      else if '0' ≤ c ∧ c ≤ '9' then typeScan 3 type (digits + 1) rest
      else 0

/-- `SRA_AccessionType` (lines 87-142): returns the code point of the 3rd
character if the name matches the SRA accession pattern, 0 otherwise. -/
def SRA_AccessionType (query : String) : Nat :=
  typeScan 0 0 0 query.data

/-- The category the dispatcher assigns to an accession: run data, container
(project / sample / experiment), or unrecognized. -/
inductive AccessionCategory where
  | run
  | container
  | unrecognized
deriving DecidableEq

/-- The switch of `expandAll` on the classifier's result (lines 160-176):
code `R` is a run; codes `P`, `S`, `X` are containers; anything else
(including `A` and the failure code 0) falls to the default branch, left for
the resolver to judge. -/
def categoryOfType (t : Nat) : AccessionCategory :=
  if t = 'R'.toNat then AccessionCategory.run
  else if t = 'P'.toNat ∨ t = 'S'.toNat ∨ t = 'X'.toNat then
    AccessionCategory.container
  else AccessionCategory.unrecognized

/-- Category of an accession string, per the classifier and `expandAll`'s
switch on it. -/
def accessionCategory (query : String) : AccessionCategory :=
  categoryOfType (SRA_AccessionType query)

/-- A decimal digit, the state-3 character test of the scanner. -/
def isDigitChar (c : Char) : Bool :=
  decide ('0' ≤ c ∧ c ≤ '9')

/-- Loop state of `expandAll` (lines 147-149): the output list, the set of
accessions already seen, and the failure flag; `diags` records the container
accessions reported to stderr (line 169), in order. -/
structure ExpandState where
  result : List String
  seen : List String
  failed : Bool
  diags : List String
deriving DecidableEq

/-- An accession that makes `expandAll` set its failure flag: not a readable
file (line 158) and classified as a container (lines 165-167). -/
def isBlockedContainer (readable : String → Bool) (acc : String) : Bool :=
  !readable acc && decide (accessionCategory acc = AccessionCategory.container)

/-- One iteration of `expandAll`'s loop (lines 151-179).  A seen accession is
skipped; otherwise it is recorded as seen, then, unless it names a readable
file, it is classified — container accessions are reported and set the failure
flag — and finally it is appended to the result. -/
def expandStep (readable : String → Bool) (s : ExpandState) (acc : String) :
    ExpandState :=
  if acc ∈ s.seen then s
  else
    let withSeen : ExpandState := { s with seen := s.seen ++ [acc] }
    let classified : ExpandState :=
      if readable acc then withSeen
      else if accessionCategory acc = AccessionCategory.container then
        { withSeen with failed := true, diags := withSeen.diags ++ [acc] }
      else withSeen
    { classified with result := classified.result ++ [acc] }

/-- `expandAll` (lines 144-185).  On failure the process exits with
`EX_UNAVAILABLE` after the per-accession diagnostics (modelled as
`Except.error` carrying the exit code and the reported accessions); otherwise
the expanded run list is returned. -/
def expandAll (readable : String → Bool) (accessions : List String) :
    Except (Nat × List String) (List String) :=
  let s := accessions.foldl (expandStep readable) ⟨[], [], false, []⟩
  if s.failed then Except.error (EX_UNAVAILABLE, s.diags)
  else Except.ok s.result

/-- Specification-side description of `expandAll`'s deduplication ("skip an
accession already seen; first occurrence wins, order of first occurrences
preserved"): the sublist of first occurrences not already in `seen`. -/
def firstOccurrences (seen : List String) : List String → List String
  | [] => []
  | a :: rest =>
      if a ∈ seen then firstOccurrences seen rest
      else a :: firstOccurrences (seen ++ [a]) rest

/-- Termination status of a child process, as reported by `wait` (the
`result.exited()` / `result.signaled()` dichotomy of lines 239-253). -/
inductive ChildResult where
  | exited (code : Nat)
  | signaled (sig : Nat)
deriving DecidableEq

/-- Outcome of one `processSource` call.  `fatalExit` models the
`exit(result.exit_code())` at line 247 after printing the tool name, pid and
exit code; `fatalSignal` models the `abort()` at line 252 after printing the
tool name, pid and signal number.  The carried fields record the content of
those messages. -/
inductive SourceOutcome where
  | success
  | transient
  | fatalExit (tool : String) (pid : Nat) (code : Nat)
  | fatalSignal (tool : String) (pid : Nat) (sig : Nat)
deriving DecidableEq

/-- `processSource` (lines 235-256): classify the child's termination.
Exit code 0 is success (`return true`); exit code `EX_TEMPFAIL` means "try the
next source" (`return false`); any other exit code terminates the dispatcher
with that same code; death by a signal aborts the dispatcher. -/
def processSource (tool : String) (pid : Nat) : ChildResult → SourceOutcome
  | ChildResult.exited code =>
      if code = 0 then SourceOutcome.success
      else if code = EX_TEMPFAIL then SourceOutcome.transient
      else SourceOutcome.fatalExit tool pid code
  | ChildResult.signaled sig => SourceOutcome.fatalSignal tool pid sig

/-- One data source for a run, as the dispatcher sees it: its service label
(`source.service()`), the pid the OS assigns to the child spawned for it, and
what that child does (an external given, like the resolver itself). -/
structure Source where
  service : String
  pid : Nat
  result : ChildResult
deriving DecidableEq

/-- How `processRun` (lines 258-295) ends.  `skipped` is the early `return` at
line 269 when the resolver gave no sources; `exitTempfail` is the
`exit(EX_TEMPFAIL)` at line 293, carrying the source labels printed at lines
288-292; the two fatal constructors propagate from `processSource`. -/
inductive RunResult where
  | success
  | skipped
  | exitTempfail (tried : List String)
  | fatalExit (tool : String) (pid : Nat) (code : Nat)
  | fatalSignal (tool : String) (pid : Nat) (sig : Nat)
deriving DecidableEq

/-- Trace of one `processRun`: which sources' children were spawned (service
labels, in invocation order) and the final result. -/
structure RunTrace where
  attempted : List String
  result : RunResult
deriving DecidableEq

/-- The source loop of `processRun` (lines 274-294).  `all` is the label list
of the full source list, printed if every source fails transiently.  A success
stops the loop; a transient failure is logged and the next source is tried; a
fatal outcome ends the whole dispatcher. -/
def trySources (tool : String) (all : List String) : List Source → RunTrace
  | [] => ⟨[], RunResult.exitTempfail all⟩
  | s :: rest =>
      match processSource tool s.pid s.result with
      | SourceOutcome.success => ⟨[s.service], RunResult.success⟩
      | SourceOutcome.transient =>
          ⟨s.service :: (trySources tool all rest).attempted,
           (trySources tool all rest).result⟩
      | SourceOutcome.fatalExit tl p c =>
          ⟨[s.service], RunResult.fatalExit tl p c⟩
      | SourceOutcome.fatalSignal tl p g =>
          ⟨[s.service], RunResult.fatalSignal tl p g⟩

/-- `processRun` (lines 258-295): an empty source list prints "no accessible
source" and returns to the caller; otherwise the sources are tried in order. -/
def processRun (tool : String) (sources : List Source) : RunTrace :=
  if sources.isEmpty then ⟨[], RunResult.skipped⟩
  else trySources tool (sources.map Source.service) sources

/-- How the run loop of `processAccessions` (lines 523-526) ends:
`completed` reaches the `exit(0)` at line 528; `exited code` is a process
`exit(code)` from inside `processRun`/`processSource`; `aborted` is the
`abort()` on a signalled child. -/
inductive LoopExit where
  | completed
  | exited (code : Nat)
  | aborted
deriving DecidableEq

/-- The run loop of `processAccessions` (lines 523-526): each run is processed
in list order; `processRun` only returns normally on success or on an empty
source list, so only those cases continue to the next run.  Returns the traces
of the runs actually dispatched and how the loop ended. -/
def runLoop (tool : String) (resolver : String → List Source) :
    List String → List (String × RunTrace) × LoopExit
  | [] => ([], LoopExit.completed)
  | r :: rest =>
      match processRun tool (resolver r) with
      | ⟨att, RunResult.success⟩ =>
          ((r, ⟨att, RunResult.success⟩) :: (runLoop tool resolver rest).1,
           (runLoop tool resolver rest).2)
      | ⟨att, RunResult.skipped⟩ =>
          ((r, ⟨att, RunResult.skipped⟩) :: (runLoop tool resolver rest).1,
           (runLoop tool resolver rest).2)
      | ⟨att, RunResult.exitTempfail tried⟩ =>
          ([(r, ⟨att, RunResult.exitTempfail tried⟩)],
           LoopExit.exited EX_TEMPFAIL)
      | ⟨att, RunResult.fatalExit tl p c⟩ =>
          ([(r, ⟨att, RunResult.fatalExit tl p c⟩)], LoopExit.exited c)
      | ⟨att, RunResult.fatalSignal tl p g⟩ =>
          ([(r, ⟨att, RunResult.fatalSignal tl p g⟩)], LoopExit.aborted)

/-- Outcome of the scan for the unsafe output-file parameter (lines 515-521).
`crash` models the uncaught `std::bad_optional_access` thrown by
`i->second.value()` when the matching entry has no value; `found` carries the
value of the entry designated for per-run rewriting. -/
inductive ScanResult where
  | crash
  | found (value : String)
  | notFound
deriving DecidableEq

/-- The parameter scan of `processAccessions` (lines 515-521): find the first
entry named `name` whose value differs from the sentinel "/dev/null".  The
value is dereferenced unconditionally once the name matches, so a valueless
entry named `name` crashes. -/
def scanParams (name : String) :
    List (String × Option String) → ScanResult
  | [] => ScanResult.notFound
  | p :: rest =>
      if p.1 = name then
        match p.2 with
        | none => ScanResult.crash
        | some s =>
            if s ≠ "/dev/null" then ScanResult.found s
            else scanParams name rest
      else scanParams name rest

/-- How `processAccessions` (lines 499-529) ends.  `execEmpty` is the
`emptyInvocation` exec for an empty accession list; `exitUnavailable` is
`expandAll`'s `exit(EX_UNAVAILABLE)`; `crash` is the unhandled
`bad_optional_access` from the parameter scan; `finished` carries the run
loop's trace and exit. -/
inductive DispatchOutcome where
  | execEmpty
  | exitUnavailable (diags : List String)
  | crash
  | finished (trace : List (String × RunTrace)) (ending : LoopExit)
deriving DecidableEq

/-- What follows the parameter scan: a crashed scan propagates (the exception
is uncaught); otherwise — whether or not an output-file entry was found — the
run loop proceeds (lines 523-528). -/
def afterScan (tool : String) (resolver : String → List Source)
    (runs : List String) : ScanResult → DispatchOutcome
  | ScanResult.crash => DispatchOutcome.crash
  | ScanResult.found _ =>
      DispatchOutcome.finished (runLoop tool resolver runs).1
        (runLoop tool resolver runs).2
  | ScanResult.notFound =>
      DispatchOutcome.finished (runLoop tool resolver runs).1
        (runLoop tool resolver runs).2

/-- The `unsafeOutputFileParamName` half of the guard at line 514: the scan
runs only when a parameter name is configured (non-null). -/
def withUnsafeCheck (tool : String) (params : List (String × Option String))
    (resolver : String → List Source) (runs : List String) :
    Option String → DispatchOutcome
  | some name => afterScan tool resolver runs (scanParams name params)
  | none =>
      DispatchOutcome.finished (runLoop tool resolver runs).1
        (runLoop tool resolver runs).2

/-- `processAccessions` after a successful expansion (lines 512-528): the
parameter scan happens only when more than one run resulted and a parameter
name is configured, then every run is dispatched in order. -/
def processExpanded (tool : String)
    (unsafeOutputFileParamName : Option String)
    (params : List (String × Option String))
    (resolver : String → List Source) (runs : List String) :
    DispatchOutcome :=
  if 1 < runs.length then
    withUnsafeCheck tool params resolver runs unsafeOutputFileParamName
  else
    DispatchOutcome.finished (runLoop tool resolver runs).1
      (runLoop tool resolver runs).2

/-- Continuation of `processAccessions` on `expandAll`'s outcome: a failed
expansion already exited the process with `EX_UNAVAILABLE`. -/
def processAccessionsTail (tool : String)
    (unsafeOutputFileParamName : Option String)
    (params : List (String × Option String))
    (resolver : String → List Source) :
    Except (Nat × List String) (List String) → DispatchOutcome
  | Except.error (_, diags) => DispatchOutcome.exitUnavailable diags
  | Except.ok runs =>
      processExpanded tool unsafeOutputFileParamName params resolver runs

/-- `processAccessions` (lines 499-529): handle the empty invocation, expand
the accessions, scan for the unsafe output-file parameter when more than one
run will share it, then dispatch every run in order.  The per-run rewriting of
the found entry's value happens inside the child only (line 277) and does not
affect the dispatcher's control flow, so it is not modelled further. -/
def processAccessions (tool : String)
    (unsafeOutputFileParamName : Option String)
    (params : List (String × Option String)) (readable : String → Bool)
    (resolver : String → List Source) (accessions : List String) :
    DispatchOutcome :=
  if accessions.isEmpty then DispatchOutcome.execEmpty
  else
    processAccessionsTail tool unsafeOutputFileParamName params resolver
      (expandAll readable accessions)

/-! ### Classifier lemmas -/

lemma typeScan_step0 (t d : Nat) (c : Char) (l : List Char) :
    typeScan 0 t d (c :: l) =
      if c = 'D' ∨ c = 'E' ∨ c = 'S' then typeScan 1 t d l else 0 := rfl

lemma typeScan_step1 (t d : Nat) (c : Char) (l : List Char) :
    typeScan 1 t d (c :: l) = if c = 'R' then typeScan 2 t d l else 0 := rfl

lemma typeScan_step2 (t d : Nat) (c : Char) (l : List Char) :
    typeScan 2 t d (c :: l) =
      if c = 'A' ∨ c = 'P' ∨ c = 'R' ∨ c = 'S' ∨ c = 'X' then
        typeScan 3 c.toNat d l
      else 0 := rfl

lemma typeScan_step3 (t d : Nat) (c : Char) (l : List Char) :
    typeScan 3 t d (c :: l) =
      if c = '.' then typeFinish t d
      else if '0' ≤ c ∧ c ≤ '9' then typeScan 3 t (d + 1) l
      else 0 := rfl

/-- A digit is not the dot that stops the scan. -/
lemma isDigitChar_ne_dot {c : Char} (h : isDigitChar c = true) : c ≠ '.' := by
  intro hc
  subst hc
  exact absurd h (by decide)

/-- Scanning a run of digits (followed by nothing or by a terminating dot)
adds the run's length to the digit count and reaches the final check. -/
lemma typeScan_digits (tail : List Char) (htail : tail = [] ∨ tail = ['.']) :
    ∀ (ds : List Char), (∀ c ∈ ds, isDigitChar c = true) →
    ∀ (t d : Nat), typeScan 3 t d (ds ++ tail) = typeFinish t (d + ds.length)
  | [], _, t, d => by
      rcases htail with h | h <;> subst h
      · rfl
      · rfl
  | c :: ds, hds, t, d => by
      have hc : isDigitChar c = true := hds c (List.mem_cons_self c ds)
      have hdot : c ≠ '.' := isDigitChar_ne_dot hc
      have hd9 : '0' ≤ c ∧ c ≤ '9' := by
        simpa [isDigitChar, decide_eq_true_iff] using hc
      rw [List.cons_append, typeScan_step3, if_neg hdot, if_pos hd9,
        typeScan_digits tail htail ds (fun x hx => hds x (List.mem_cons_of_mem c hx))]
      congr 1
      simp only [List.length_cons]
      omega

/-- In state 3 the scan either fails (0) or returns the remembered type. -/
lemma typeScan3_cases :
    ∀ (l : List Char) (t d : Nat), typeScan 3 t d l = 0 ∨ typeScan 3 t d l = t
  | [], t, d => by
      unfold typeScan typeFinish
      split
      · exact Or.inr rfl
      · exact Or.inl rfl
  | c :: l, t, d => by
      rw [typeScan_step3]
      by_cases hdot : c = '.'
      · rw [if_pos hdot]
        unfold typeFinish
        split
        · exact Or.inr rfl
        · exact Or.inl rfl
      · rw [if_neg hdot]
        by_cases hdig : '0' ≤ c ∧ c ≤ '9'
        · rw [if_pos hdig]
          exact typeScan3_cases l t (d + 1)
        · rw [if_neg hdig]
          exact Or.inl rfl

/-- Stepping through a valid three-letter prefix reaches the digit state with
the third letter remembered as the type. -/
lemma typeScan_letters (c0 c2 : Char) (l : List Char)
    (hc0 : c0 = 'D' ∨ c0 = 'E' ∨ c0 = 'S')
    (hc2 : c2 = 'A' ∨ c2 = 'P' ∨ c2 = 'R' ∨ c2 = 'S' ∨ c2 = 'X') :
    typeScan 0 0 0 (c0 :: 'R' :: c2 :: l) = typeScan 3 c2.toNat 0 l := by
  rw [typeScan_step0, if_pos hc0, typeScan_step1, if_pos rfl,
    typeScan_step2, if_pos hc2]

/-- Claim C4: for a string made of a valid prefix ({D,E,S} then R then one of
{A,P,R,S,X}) followed only by decimal digits, optionally terminated by a dot,
the classifier accepts exactly when the digit-run length is between 6 and 9
inclusive (R gives category Run, P/S/X give Container); with 5 or 10 digits,
or a character outside the allowed set at any of the three letter positions,
the category is Unrecognized. -/
theorem classifier_digit_bounds (c0 c2 : Char) (ds tail : List Char)
    (hc0 : c0 = 'D' ∨ c0 = 'E' ∨ c0 = 'S')
    (hc2 : c2 = 'A' ∨ c2 = 'P' ∨ c2 = 'R' ∨ c2 = 'S' ∨ c2 = 'X')
    (hds : ∀ c ∈ ds, isDigitChar c = true)
    (htail : tail = [] ∨ tail = ['.']) :
    (SRA_AccessionType (String.mk (c0 :: 'R' :: c2 :: (ds ++ tail))) =
      if 6 ≤ ds.length ∧ ds.length ≤ 9 then c2.toNat else 0)
    ∧ (6 ≤ ds.length → ds.length ≤ 9 →
        SRA_AccessionType (String.mk (c0 :: 'R' :: c2 :: (ds ++ tail))) ≠ 0
        ∧ (c2 = 'R' →
            accessionCategory (String.mk (c0 :: 'R' :: c2 :: (ds ++ tail))) =
              AccessionCategory.run)
        ∧ ((c2 = 'P' ∨ c2 = 'S' ∨ c2 = 'X') →
            accessionCategory (String.mk (c0 :: 'R' :: c2 :: (ds ++ tail))) =
              AccessionCategory.container))
    ∧ (ds.length = 5 ∨ ds.length = 10 →
        accessionCategory (String.mk (c0 :: 'R' :: c2 :: (ds ++ tail))) =
          AccessionCategory.unrecognized)
    ∧ (∀ b0 : Char, ¬(b0 = 'D' ∨ b0 = 'E' ∨ b0 = 'S') →
        accessionCategory (String.mk (b0 :: 'R' :: c2 :: (ds ++ tail))) =
          AccessionCategory.unrecognized)
    ∧ (∀ b1 : Char, b1 ≠ 'R' →
        accessionCategory (String.mk (c0 :: b1 :: c2 :: (ds ++ tail))) =
          AccessionCategory.unrecognized)
    ∧ (∀ b2 : Char, ¬(b2 = 'A' ∨ b2 = 'P' ∨ b2 = 'R' ∨ b2 = 'S' ∨ b2 = 'X') →
        accessionCategory (String.mk (c0 :: 'R' :: b2 :: (ds ++ tail))) =
          AccessionCategory.unrecognized) := by
  have hmain :
      SRA_AccessionType (String.mk (c0 :: 'R' :: c2 :: (ds ++ tail))) =
        typeFinish c2.toNat ds.length := by
    show typeScan 0 0 0 (c0 :: 'R' :: c2 :: (ds ++ tail)) = _
    rw [typeScan_letters c0 c2 (ds ++ tail) hc0 hc2,
      typeScan_digits tail htail ds hds, Nat.zero_add]
  have htype0 : c2.toNat ≠ 0 := by
    rcases hc2 with h | h | h | h | h <;> subst h <;> decide
  refine ⟨?_, ?_, ?_, ?_, ?_, ?_⟩
  · rw [hmain, typeFinish]
  · intro h6 h9
    have hfin : typeFinish c2.toNat ds.length = c2.toNat := by
      rw [typeFinish, if_pos ⟨h6, h9⟩]
    refine ⟨by rw [hmain, hfin]; exact htype0, ?_, ?_⟩
    · intro hR
      show categoryOfType (SRA_AccessionType _) = _
      rw [hmain, hfin, hR]
      decide
    · intro hC
      show categoryOfType (SRA_AccessionType _) = _
      rw [hmain, hfin]
      rcases hC with h | h | h <;> subst h <;> decide
  · intro hlen
    show categoryOfType (SRA_AccessionType _) = _
    rw [hmain]
    rcases hlen with h | h <;> rw [h, typeFinish, if_neg (by omega)] <;> decide
  · intro b0 hb0
    show categoryOfType (typeScan 0 0 0 (b0 :: 'R' :: c2 :: (ds ++ tail))) = _
    rw [typeScan_step0, if_neg hb0]
    decide
  · intro b1 hb1
    show categoryOfType (typeScan 0 0 0 (c0 :: b1 :: c2 :: (ds ++ tail))) = _
    rw [typeScan_step0, if_pos hc0, typeScan_step1, if_neg hb1]
    decide
  · intro b2 hb2
    show categoryOfType (typeScan 0 0 0 (c0 :: 'R' :: b2 :: (ds ++ tail))) = _
    rw [typeScan_step0, if_pos hc0, typeScan_step1, if_pos rfl,
      typeScan_step2, if_neg hb2]
    decide

/-- Witness for C4 at concrete inputs: SRR000001 (6 digits) is a run,
SRP000001 is a container, SRR00001 (5 digits) is unrecognized, and an invalid
third letter (B) is unrecognized. -/
theorem classifier_digit_bounds_witness :
    accessionCategory (String.mk ['S', 'R', 'R', '0', '0', '0', '0', '0', '1']) =
      AccessionCategory.run ∧
    accessionCategory (String.mk ['S', 'R', 'P', '0', '0', '0', '0', '0', '1']) =
      AccessionCategory.container ∧
    accessionCategory (String.mk ['S', 'R', 'R', '0', '0', '0', '0', '1']) =
      AccessionCategory.unrecognized ∧
    accessionCategory (String.mk ['S', 'R', 'B', '0', '0', '0', '0', '0', '1']) =
      AccessionCategory.unrecognized := by
  refine ⟨?_, ?_, ?_, ?_⟩
  · exact ((classifier_digit_bounds 'S' 'R' ['0', '0', '0', '0', '0', '1'] []
      (by decide) (by decide) (by decide) (Or.inl rfl)).2.1
      (by decide) (by decide)).2.1 rfl
  · exact ((classifier_digit_bounds 'S' 'P' ['0', '0', '0', '0', '0', '1'] []
      (by decide) (by decide) (by decide) (Or.inl rfl)).2.1
      (by decide) (by decide)).2.2 (Or.inl rfl)
  · exact (classifier_digit_bounds 'S' 'R' ['0', '0', '0', '0', '1'] []
      (by decide) (by decide) (by decide) (Or.inl rfl)).2.2.1 (Or.inl rfl)
  · exact (classifier_digit_bounds 'S' 'R' ['0', '0', '0', '0', '0', '1'] []
      (by decide) (by decide) (by decide) (Or.inl rfl)).2.2.2.2.2 'B'
      (by decide)

/-- Claim C5: any string whose third character is A (a submitter accession) is
categorized Unrecognized, whatever the other characters and the digit count:
the expander's switch has no case for the submitter type code. -/
theorem classifier_submitter_unrecognized (a b : Char) (rest : List Char) :
    accessionCategory (String.mk (a :: b :: 'A' :: rest)) =
      AccessionCategory.unrecognized := by
  show categoryOfType (typeScan 0 0 0 (a :: b :: 'A' :: rest)) = _
  rw [typeScan_step0]
  by_cases h0 : a = 'D' ∨ a = 'E' ∨ a = 'S'
  · rw [if_pos h0, typeScan_step1]
    by_cases h1 : b = 'R'
    · rw [if_pos h1, typeScan_step2, if_pos (Or.inl rfl)]
      rcases typeScan3_cases rest 'A'.toNat 0 with h | h <;> rw [h] <;> decide
    · rw [if_neg h1]
      decide
  · rw [if_neg h0]
    decide

/-! ### Expander lemmas -/

lemma expandStep_seen {readable : String → Bool} {s : ExpandState}
    {acc : String} (h : acc ∈ s.seen) : expandStep readable s acc = s := by
  simp [expandStep, h]

lemma expandStep_new {readable : String → Bool} {s : ExpandState}
    {acc : String} (h : acc ∉ s.seen) :
    expandStep readable s acc =
      ⟨s.result ++ [acc], s.seen ++ [acc],
       s.failed || isBlockedContainer readable acc,
       s.diags ++ if isBlockedContainer readable acc then [acc] else []⟩ := by
  unfold expandStep
  rw [if_neg h]
  cases hr : readable acc
  · by_cases hc : accessionCategory acc = AccessionCategory.container
    · simp [isBlockedContainer, hr, hc]
    · simp [isBlockedContainer, hr, hc]
  · simp [isBlockedContainer, hr]

/-- Closed form of `expandAll`'s loop: the fold appends the first occurrences
not already seen, ORs the failure flag with "some new accession is a blocked
container", and appends the blocked containers to the diagnostics. -/
lemma foldl_expandStep (readable : String → Bool) :
    ∀ (accs : List String) (s : ExpandState),
      accs.foldl (expandStep readable) s =
        ⟨s.result ++ firstOccurrences s.seen accs,
         s.seen ++ firstOccurrences s.seen accs,
         s.failed ||
           (firstOccurrences s.seen accs).any (isBlockedContainer readable),
         s.diags ++
           (firstOccurrences s.seen accs).filter (isBlockedContainer readable)⟩
  | [], s => by simp [firstOccurrences]
  | a :: rest, s => by
      rw [List.foldl_cons]
      by_cases h : a ∈ s.seen
      · rw [expandStep_seen h, foldl_expandStep readable rest s]
        simp [firstOccurrences, h]
      · rw [expandStep_new h, foldl_expandStep readable rest _]
        simp only [firstOccurrences, if_neg h, ExpandState.mk.injEq]
        refine ⟨by simp, by simp, ?_, ?_⟩
        · rw [List.any_cons, Bool.or_assoc]
        · rw [List.filter_cons]
          cases hb : isBlockedContainer readable a <;> simp

lemma mem_firstOccurrences {a : String} :
    ∀ (l seen : List String),
      a ∈ firstOccurrences seen l ↔ a ∈ l ∧ a ∉ seen
  | [], seen => by simp [firstOccurrences]
  | b :: rest, seen => by
      unfold firstOccurrences
      by_cases hb : b ∈ seen
      · rw [if_pos hb, mem_firstOccurrences rest seen]
        constructor
        · rintro ⟨h1, h2⟩
          exact ⟨List.mem_cons_of_mem b h1, h2⟩
        · rintro ⟨h1, h2⟩
          rcases List.mem_cons.mp h1 with h | h
          · subst h
            exact absurd hb h2
          · exact ⟨h, h2⟩
      · rw [if_neg hb, List.mem_cons, mem_firstOccurrences rest (seen ++ [b])]
        constructor
        · rintro (h | ⟨h1, h2⟩)
          · subst h
            exact ⟨List.mem_cons_self a rest, hb⟩
          · exact ⟨List.mem_cons_of_mem b h1,
              fun hs => h2 (List.mem_append_left _ hs)⟩
        · rintro ⟨h1, h2⟩
          by_cases hab : a = b
          · exact Or.inl hab
          · rcases List.mem_cons.mp h1 with h | h
            · exact absurd h hab
            · refine Or.inr ⟨h, fun hs => ?_⟩
              rcases List.mem_append.mp hs with hs | hs
              · exact h2 hs
              · rw [List.mem_singleton] at hs
                exact hab hs

lemma nodup_firstOccurrences :
    ∀ (l seen : List String), (firstOccurrences seen l).Nodup
  | [], _ => by simp [firstOccurrences]
  | b :: rest, seen => by
      unfold firstOccurrences
      by_cases hb : b ∈ seen
      · rw [if_pos hb]
        exact nodup_firstOccurrences rest seen
      · rw [if_neg hb]
        refine List.nodup_cons.mpr
          ⟨fun hmem => ?_, nodup_firstOccurrences rest (seen ++ [b])⟩
        exact ((mem_firstOccurrences rest (seen ++ [b])).mp hmem).2
          (List.mem_append_right _ (List.mem_singleton.mpr rfl))

lemma firstOccurrences_of_nodup :
    ∀ (l seen : List String), l.Nodup → (∀ a ∈ l, a ∉ seen) →
      firstOccurrences seen l = l
  | [], _, _, _ => rfl
  | b :: rest, seen, hnd, hno => by
      unfold firstOccurrences
      rw [if_neg (hno b (List.mem_cons_self b rest))]
      congr 1
      refine firstOccurrences_of_nodup rest (seen ++ [b])
        (List.nodup_cons.mp hnd).2 (fun a ha hmem => ?_)
      rcases List.mem_append.mp hmem with h | h
      · exact hno a (List.mem_cons_of_mem b ha) h
      · rw [List.mem_singleton] at h
        subst h
        exact (List.nodup_cons.mp hnd).1 ha

/-- Closed form of `expandAll` itself. -/
lemma expandAll_eq (readable : String → Bool) (accs : List String) :
    expandAll readable accs =
      if (firstOccurrences [] accs).any (isBlockedContainer readable) then
        Except.error (EX_UNAVAILABLE,
          (firstOccurrences [] accs).filter (isBlockedContainer readable))
      else Except.ok (firstOccurrences [] accs) := by
  unfold expandAll
  rw [foldl_expandStep readable accs ⟨[], [], false, []⟩]
  simp

/-- Claim C3: whenever some input accession (not a readable file, not yet
seen) is classified as a container, `expandAll` aborts with the
service-unavailable exit code, and the diagnostics name every distinct
offending container accession of the whole input, in order — the abort happens
only after the entire input has been scanned, and no output run list is
produced. -/
theorem expander_container_batch (readable : String → Bool)
    (accs : List String)
    (h : ∃ a ∈ accs, isBlockedContainer readable a = true) :
    expandAll readable accs =
      Except.error (EX_UNAVAILABLE,
        (firstOccurrences [] accs).filter (isBlockedContainer readable)) := by
  obtain ⟨a, ha, hbad⟩ := h
  have hmem : a ∈ firstOccurrences [] accs :=
    (mem_firstOccurrences accs []).mpr ⟨ha, by simp⟩
  have hany :
      (firstOccurrences [] accs).any (isBlockedContainer readable) = true :=
    List.any_eq_true.mpr ⟨a, hmem, hbad⟩
  rw [expandAll_eq, if_pos hany]

/-- Witness for C3: two container accessions (SRP000001, SRX000001) separated
by a run accession are both reported together, with exit code 69. -/
theorem expander_container_batch_witness :
    expandAll (fun _ => false) ["SRP000001", "SRR000001", "SRX000001"] =
      Except.error (EX_UNAVAILABLE, ["SRP000001", "SRX000001"]) :=
  expander_container_batch (fun _ => false)
    ["SRP000001", "SRR000001", "SRX000001"]
    ⟨"SRP000001", by decide, by decide⟩

/-- Claim C7: `expandAll` skips accessions equal to one already seen: the
output is exactly the input's first occurrences in order; in particular a
duplicated accession collapses to a single-element run list. -/
theorem expander_dedup (readable : String → Bool) (accs l : List String)
    (h : expandAll readable accs = Except.ok l) :
    l = firstOccurrences [] accs ∧ l.Nodup ∧
    expandAll (fun _ => false) ["SRR000001", "SRR000001"] =
      Except.ok ["SRR000001"] := by
  rw [expandAll_eq] at h
  by_cases hany :
      (firstOccurrences [] accs).any (isBlockedContainer readable) = true
  · rw [if_pos hany] at h
    cases h
  · rw [if_neg hany] at h
    have hl : l = firstOccurrences [] accs := (Except.ok.inj h).symm
    exact ⟨hl, hl ▸ nodup_firstOccurrences accs [], rfl⟩

/-- Witness for C7: the duplicated input collapses to one run. -/
theorem expander_dedup_witness :
    expandAll (fun _ => false) ["SRR000001", "SRR000001"] =
      Except.ok ["SRR000001"] :=
  (expander_dedup (fun _ => false) ["SRR000001", "SRR000001"]
    ["SRR000001"] rfl).2.2

/-- Claim C8: every entry of a run list returned by `expandAll` either names a
readable file (passed through unclassified) or has category Run or
Unrecognized — never Container. -/
theorem expander_no_containers (readable : String → Bool)
    (accs l : List String) (h : expandAll readable accs = Except.ok l) :
    ∀ a ∈ l, readable a = true ∨
      accessionCategory a = AccessionCategory.run ∨
      accessionCategory a = AccessionCategory.unrecognized := by
  rw [expandAll_eq] at h
  by_cases hany :
      (firstOccurrences [] accs).any (isBlockedContainer readable) = true
  · rw [if_pos hany] at h
    cases h
  · rw [if_neg hany] at h
    have hl : l = firstOccurrences [] accs := (Except.ok.inj h).symm
    intro a ha
    by_cases hr : readable a = true
    · exact Or.inl hr
    · have hrf : readable a = false := by
        cases hx : readable a
        · rfl
        · exact absurd hx hr
      have hcat : accessionCategory a ≠ AccessionCategory.container := by
        intro hc
        have hbad : isBlockedContainer readable a = true := by
          simp [isBlockedContainer, hrf, hc]
        exact hany (List.any_eq_true.mpr ⟨a, hl ▸ ha, hbad⟩)
      right
      cases hcase : accessionCategory a with
      | run => exact Or.inl rfl
      | container => exact absurd hcase hcat
      | unrecognized => exact Or.inr rfl

/-- Witness for C8: an expanded list containing a run accession and an
unclassifiable name has no container entry. -/
theorem expander_no_containers_witness :
    (fun _ => false : String → Bool) "noSuchFile" = true ∨
    accessionCategory "noSuchFile" = AccessionCategory.run ∨
    accessionCategory "noSuchFile" = AccessionCategory.unrecognized :=
  expander_no_containers (fun _ => false) ["SRR000001", "noSuchFile"]
    ["SRR000001", "noSuchFile"] rfl "noSuchFile" (by decide)

/-- Claim C9: `expandAll` is idempotent — re-running it on a run list it
returned yields that same list unchanged. -/
theorem expander_idempotent (readable : String → Bool) (accs l : List String)
    (h : expandAll readable accs = Except.ok l) :
    expandAll readable l = Except.ok l := by
  rw [expandAll_eq] at h
  by_cases hany :
      (firstOccurrences [] accs).any (isBlockedContainer readable) = true
  · rw [if_pos hany] at h
    cases h
  · rw [if_neg hany] at h
    have hl : l = firstOccurrences [] accs := (Except.ok.inj h).symm
    have hnd : l.Nodup := hl ▸ nodup_firstOccurrences accs []
    have hself : firstOccurrences [] l = l :=
      firstOccurrences_of_nodup l [] hnd (by simp)
    have hany2 : (firstOccurrences [] l).any (isBlockedContainer readable) =
        false := by
      rw [hself, hl]
      cases hx :
          (firstOccurrences [] accs).any (isBlockedContainer readable)
      · rfl
      · exact absurd hx hany
    rw [expandAll_eq, hany2, if_neg (by simp), hself]

/-- Witness for C9: expanding a list with a duplicate and re-expanding the
result is a no-op on the result. -/
theorem expander_idempotent_witness :
    expandAll (fun _ => false) ["SRR000001", "SRR000002"] =
      Except.ok ["SRR000001", "SRR000002"] :=
  expander_idempotent (fun _ => false)
    ["SRR000001", "SRR000001", "SRR000002"] ["SRR000001", "SRR000002"] rfl

/-! ### Supervisor and run-dispatcher lemmas -/

lemma trySources_cons_success {tool : String} {all : List String}
    {s : Source} {rest : List Source}
    (h : processSource tool s.pid s.result = SourceOutcome.success) :
    trySources tool all (s :: rest) = ⟨[s.service], RunResult.success⟩ := by
  conv_lhs => rw [trySources]
  rw [h]

lemma trySources_cons_transient {tool : String} {all : List String}
    {s : Source} {rest : List Source}
    (h : processSource tool s.pid s.result = SourceOutcome.transient) :
    trySources tool all (s :: rest) =
      ⟨s.service :: (trySources tool all rest).attempted,
       (trySources tool all rest).result⟩ := by
  conv_lhs => rw [trySources]
  rw [h]

lemma trySources_cons_fatalExit {tool : String} {all : List String}
    {s : Source} {rest : List Source} {tl : String} {p c : Nat}
    (h : processSource tool s.pid s.result = SourceOutcome.fatalExit tl p c) :
    trySources tool all (s :: rest) = ⟨[s.service], RunResult.fatalExit tl p c⟩ := by
  conv_lhs => rw [trySources]
  rw [h]

lemma trySources_cons_fatalSignal {tool : String} {all : List String}
    {s : Source} {rest : List Source} {tl : String} {p g : Nat}
    (h : processSource tool s.pid s.result = SourceOutcome.fatalSignal tl p g) :
    trySources tool all (s :: rest) =
      ⟨[s.service], RunResult.fatalSignal tl p g⟩ := by
  conv_lhs => rw [trySources]
  rw [h]

/-- If every source's child fails with `EX_TEMPFAIL`, the whole source list is
attempted in order and the loop falls through to the exhaustion exit. -/
lemma trySources_all_transient (tool : String) (all : List String) :
    ∀ (sources : List Source),
      (∀ x ∈ sources, x.result = ChildResult.exited EX_TEMPFAIL) →
      trySources tool all sources =
        ⟨sources.map Source.service, RunResult.exitTempfail all⟩
  | [], _ => rfl
  | s :: rest, h => by
      have hs : processSource tool s.pid s.result = SourceOutcome.transient := by
        rw [h s (List.mem_cons_self s rest)]
        rfl
      rw [trySources_cons_transient hs,
        trySources_all_transient tool all rest
          (fun x hx => h x (List.mem_cons_of_mem s hx))]
      simp

/-- A prefix of transient failures followed by a succeeding source: each
prefix source and the succeeding one are attempted, in order, and nothing
after the first success. -/
lemma trySources_first_success (tool : String) (all : List String) :
    ∀ (pre : List Source) (s : Source) (post : List Source),
      (∀ x ∈ pre, x.result = ChildResult.exited EX_TEMPFAIL) →
      s.result = ChildResult.exited 0 →
      trySources tool all (pre ++ s :: post) =
        ⟨pre.map Source.service ++ [s.service], RunResult.success⟩
  | [], s, post, _, hs => by
      have h : processSource tool s.pid s.result = SourceOutcome.success := by
        rw [hs]
        rfl
      rw [List.nil_append, trySources_cons_success h]
      simp
  | x :: pre, s, post, hpre, hs => by
      have hx : processSource tool x.pid x.result = SourceOutcome.transient := by
        rw [hpre x (List.mem_cons_self x pre)]
        rfl
      rw [List.cons_append, trySources_cons_transient hx,
        trySources_first_success tool all pre s post
          (fun y hy => hpre y (List.mem_cons_of_mem x hy)) hs]
      simp

/-- Claim C1: `processSource` classifies a child's termination exactly as:
exit 0 is Success; exit `EX_TEMPFAIL` is a transient failure (next source
tried); any other exit code is fatal — the message carries the tool name, pid
and exit code, the following sources and runs are not attempted, and the
dispatcher terminates with that same exit code; a signal is fatal with the
tool name, pid and signal number, with abnormal termination and no retry. -/
theorem supervisor_outcomes (tool : String) (pid : Nat) (c g : Nat)
    (hc0 : c ≠ 0) (hct : c ≠ EX_TEMPFAIL) :
    processSource tool pid (ChildResult.exited 0) = SourceOutcome.success
    ∧ processSource tool pid (ChildResult.exited EX_TEMPFAIL) =
        SourceOutcome.transient
    ∧ processSource tool pid (ChildResult.exited c) =
        SourceOutcome.fatalExit tool pid c
    ∧ processSource tool pid (ChildResult.signaled g) =
        SourceOutcome.fatalSignal tool pid g
    ∧ (∀ (svc : String) (rest : List Source),
        processRun tool (⟨svc, pid, ChildResult.exited c⟩ :: rest) =
          ⟨[svc], RunResult.fatalExit tool pid c⟩)
    ∧ (∀ (svc : String) (rest : List Source),
        processRun tool (⟨svc, pid, ChildResult.signaled g⟩ :: rest) =
          ⟨[svc], RunResult.fatalSignal tool pid g⟩)
    ∧ (∀ (resolver : String → List Source) (r : String)
        (moreRuns : List String) (svc : String) (rest : List Source),
        resolver r = ⟨svc, pid, ChildResult.exited c⟩ :: rest →
        runLoop tool resolver (r :: moreRuns) =
          ([(r, ⟨[svc], RunResult.fatalExit tool pid c⟩)], LoopExit.exited c))
    ∧ (∀ (resolver : String → List Source) (r : String)
        (moreRuns : List String) (svc : String) (rest : List Source),
        resolver r = ⟨svc, pid, ChildResult.signaled g⟩ :: rest →
        runLoop tool resolver (r :: moreRuns) =
          ([(r, ⟨[svc], RunResult.fatalSignal tool pid g⟩)],
           LoopExit.aborted)) := by
  have h3 : processSource tool pid (ChildResult.exited c) =
      SourceOutcome.fatalExit tool pid c := by
    rw [processSource, if_neg hc0, if_neg hct]
  have h5 : ∀ (svc : String) (rest : List Source),
      processRun tool (⟨svc, pid, ChildResult.exited c⟩ :: rest) =
        ⟨[svc], RunResult.fatalExit tool pid c⟩ := by
    intro svc rest
    unfold processRun
    rw [if_neg (by simp)]
    exact trySources_cons_fatalExit h3
  have h6 : ∀ (svc : String) (rest : List Source),
      processRun tool (⟨svc, pid, ChildResult.signaled g⟩ :: rest) =
        ⟨[svc], RunResult.fatalSignal tool pid g⟩ := by
    intro svc rest
    unfold processRun
    rw [if_neg (by simp)]
    exact trySources_cons_fatalSignal rfl
  refine ⟨rfl, rfl, h3, rfl, h5, h6, ?_, ?_⟩
  · intro resolver r moreRuns svc rest hres
    conv_lhs => rw [runLoop]
    rw [hres, h5 svc rest]
  · intro resolver r moreRuns svc rest hres
    conv_lhs => rw [runLoop]
    rw [hres, h6 svc rest]

/-- Witness for C1: a child exiting 3 is classified fatal; the dispatcher
stops there (the second, healthy source and the second run are never tried)
and exits with code 3. -/
theorem supervisor_outcomes_witness :
    processSource "fasterq-dump" 42 (ChildResult.exited 3) =
      SourceOutcome.fatalExit "fasterq-dump" 42 3 ∧
    runLoop "fasterq-dump"
      (fun _ => [⟨"sra-ncbi", 42, ChildResult.exited 3⟩,
                 ⟨"sra-aws", 43, ChildResult.exited 0⟩])
      ["SRR000001", "SRR000002"] =
      ([("SRR000001",
          ⟨["sra-ncbi"], RunResult.fatalExit "fasterq-dump" 42 3⟩)],
       LoopExit.exited 3) := by
  have h := supervisor_outcomes "fasterq-dump" 42 3 9 (by decide) (by decide)
  exact ⟨h.2.2.1,
    h.2.2.2.2.2.2.1 _ "SRR000001" ["SRR000002"] "sra-ncbi"
      [⟨"sra-aws", 43, ChildResult.exited 0⟩] rfl⟩

/-- Claim C2: `processRun` attempts sources sequentially in the given order
and stops at the first success: a prefix of transient failures followed by a
succeeding source yields exactly those attempts, in order, ending in Success;
if every source fails transiently, all of them are attempted and the run ends
in the temporary-failure exit carrying every tried source's label. -/
theorem run_dispatcher_source_order (tool : String) (pre : List Source)
    (s : Source) (post : List Source) (sources : List Source)
    (hpre : ∀ x ∈ pre, x.result = ChildResult.exited EX_TEMPFAIL)
    (hs : s.result = ChildResult.exited 0)
    (hne : sources ≠ [])
    (hall : ∀ x ∈ sources, x.result = ChildResult.exited EX_TEMPFAIL) :
    processRun tool (pre ++ s :: post) =
      ⟨pre.map Source.service ++ [s.service], RunResult.success⟩
    ∧ processRun tool sources =
      ⟨sources.map Source.service,
       RunResult.exitTempfail (sources.map Source.service)⟩ := by
  constructor
  · unfold processRun
    rw [if_neg (by simp)]
    exact trySources_first_success tool _ pre s post hpre hs
  · unfold processRun
    rw [if_neg (fun hc => hne (List.isEmpty_iff.mp hc))]
    exact trySources_all_transient tool _ sources hall

/-- Witness for C2: with sources [A transient, B success] the supervisor runs
exactly twice, in order, and the run succeeds; with [A transient, B transient]
both are attempted and the run exits with the temporary-failure code listing
both labels. -/
theorem run_dispatcher_source_order_witness :
    processRun "fasterq-dump"
      [⟨"sra-ncbi", 101, ChildResult.exited EX_TEMPFAIL⟩,
       ⟨"sra-aws", 102, ChildResult.exited 0⟩] =
      ⟨["sra-ncbi", "sra-aws"], RunResult.success⟩ ∧
    processRun "fasterq-dump"
      [⟨"sra-ncbi", 101, ChildResult.exited EX_TEMPFAIL⟩,
       ⟨"sra-aws", 102, ChildResult.exited EX_TEMPFAIL⟩] =
      ⟨["sra-ncbi", "sra-aws"],
       RunResult.exitTempfail ["sra-ncbi", "sra-aws"]⟩ :=
  run_dispatcher_source_order "fasterq-dump"
    [⟨"sra-ncbi", 101, ChildResult.exited EX_TEMPFAIL⟩]
    ⟨"sra-aws", 102, ChildResult.exited 0⟩ []
    [⟨"sra-ncbi", 101, ChildResult.exited EX_TEMPFAIL⟩,
     ⟨"sra-aws", 102, ChildResult.exited EX_TEMPFAIL⟩]
    (by decide) rfl (by decide) (by decide)

/-- Counterexample to claim C6: `processRun` on an empty source list yields
the non-fatal `skipped` result (the early `return` at line 269), not the
temporary-failure exit, and the run loop then proceeds to the next run and
completes — it does not terminate with `EX_TEMPFAIL`. -/
theorem run_dispatcher_empty_counterexample :
    processRun "fasterq-dump" [] = ⟨[], RunResult.skipped⟩ ∧
    RunResult.skipped ≠ RunResult.exitTempfail [] ∧
    runLoop "fasterq-dump" (fun _ => []) ["SRR000001", "SRR000002"] =
      ([("SRR000001", ⟨[], RunResult.skipped⟩),
        ("SRR000002", ⟨[], RunResult.skipped⟩)], LoopExit.completed) ∧
    LoopExit.completed ≠ LoopExit.exited EX_TEMPFAIL := by
  refine ⟨rfl, by decide, rfl, by decide⟩

/-- Claim C6 as amended: for a run whose resolver result is empty, the
dispatcher reports "no accessible source", returns a non-fatal failure for
that run, and continues with the subsequent runs; the temporary-failure
termination is reserved for a non-empty source list whose sources all failed
transiently. -/
theorem run_dispatcher_empty_sources_continues (tool : String)
    (resolver : String → List Source) (r : String) (rest : List String)
    (h : resolver r = []) :
    processRun tool (resolver r) = ⟨[], RunResult.skipped⟩ ∧
    runLoop tool resolver (r :: rest) =
      ((r, ⟨[], RunResult.skipped⟩) :: (runLoop tool resolver rest).1,
       (runLoop tool resolver rest).2) := by
  have hp : processRun tool (resolver r) = ⟨[], RunResult.skipped⟩ := by
    rw [h]
    rfl
  refine ⟨hp, ?_⟩
  conv_lhs => rw [runLoop]
  rw [hp]

/-- Witness for amended C6: the first run has no sources and is skipped; the
second run is still dispatched and succeeds; the loop completes normally. -/
theorem run_dispatcher_empty_sources_continues_witness :
    runLoop "fasterq-dump"
      (fun r => if r = "SRR000001" then []
                else [⟨"sra-ncbi", 7, ChildResult.exited 0⟩])
      ["SRR000001", "SRR000002"] =
      (("SRR000001", ⟨[], RunResult.skipped⟩) ::
         [("SRR000002", ⟨["sra-ncbi"], RunResult.success⟩)],
       LoopExit.completed) :=
  (run_dispatcher_empty_sources_continues "fasterq-dump"
    (fun r => if r = "SRR000001" then []
              else [⟨"sra-ncbi", 7, ChildResult.exited 0⟩])
    "SRR000001" ["SRR000002"] rfl).2

/-- A valueless occurrence of the unsafe output parameter, when every earlier
occurrence of that name carries the skipped sentinel value, reaches the
unconditional dereference and crashes the scan. -/
lemma scanParams_valueless_crash (name : String) :
    ∀ (pre post : List (String × Option String)),
      (∀ p ∈ pre, p.1 = name → p.2 = some "/dev/null") →
      scanParams name (pre ++ (name, none) :: post) = ScanResult.crash
  | [], post, _ => by
      rw [List.nil_append]
      conv_lhs => rw [scanParams]
      rw [if_pos rfl]
  | p :: pre, post, h => by
      rw [List.cons_append]
      conv_lhs => rw [scanParams]
      by_cases hn : p.1 = name
      · have hv : p.2 = some "/dev/null" :=
          h p (List.mem_cons_self _ _) hn
        rw [if_pos hn, hv]
        show scanParams name (pre ++ (name, none) :: post) = ScanResult.crash
        exact scanParams_valueless_crash name pre post
          (fun q hq => h q (List.mem_cons_of_mem _ hq))
      · rw [if_neg hn]
        exact scanParams_valueless_crash name pre post
          (fun q hq => h q (List.mem_cons_of_mem _ hq))

/-- Claim C10: when more than one run was expanded and an unsafe
output-parameter name is configured, the parameter scan dereferences the
optional value of every entry whose name matches, without guarding the
absent-value case: a valueless (flag-style) occurrence of that name crashes
the dispatcher (uncaught `std::bad_optional_access`). -/
theorem dispatcher_unsafe_param_value_assumed (tool name : String)
    (pre post : List (String × Option String)) (readable : String → Bool)
    (resolver : String → List Source) (accessions runs : List String)
    (hpre : ∀ p ∈ pre, p.1 = name → p.2 = some "/dev/null")
    (hexp : expandAll readable accessions = Except.ok runs)
    (hlen : 1 < runs.length) :
    scanParams name (pre ++ (name, none) :: post) = ScanResult.crash ∧
    processAccessions tool (some name) (pre ++ (name, none) :: post)
      readable resolver accessions = DispatchOutcome.crash := by
  have hscan := scanParams_valueless_crash name pre post hpre
  refine ⟨hscan, ?_⟩
  have hne : accessions.isEmpty = false := by
    cases accessions with
    | nil =>
        rw [show expandAll readable [] = Except.ok [] from rfl] at hexp
        obtain rfl := Except.ok.inj hexp
        exact absurd hlen (by decide)
    | cons a as => rfl
  unfold processAccessions
  rw [hne, if_neg (by simp), hexp, processAccessionsTail, processExpanded,
    if_pos hlen, withUnsafeCheck, hscan, afterScan]

/-- Witness for C10: two runs, the unsafe parameter given as a bare flag —
the dispatcher crashes. -/
theorem dispatcher_unsafe_param_value_assumed_witness :
    processAccessions "fasterq-dump" (some "--outfile") [("--outfile", none)]
      (fun _ => false) (fun _ => []) ["SRR000001", "SRR000002"] =
      DispatchOutcome.crash :=
  (dispatcher_unsafe_param_value_assumed "fasterq-dump" "--outfile" [] []
    (fun _ => false) (fun _ => []) ["SRR000001", "SRR000002"]
    ["SRR000001", "SRR000002"] (by simp) rfl (by decide)).2

end sratools
